import Mathlib

/-!
Shallow embedding of the FinRack transaction sync and categorization
pipeline (`backend/app/services/transaction_sync.py`,
`backend/app/services/categorization.py`, models in
`backend/app/models/accounts.py` and `backend/app/models/transactions.py`).

Conventions of the embedding:
* Python `str` is Lean `String`; Python string helpers (`.lower()`,
  `.strip()`, `kw in s`) are re-implemented structurally over `List Char`
  so that concrete runs reduce in the kernel.
* Python floats (confidence scores, amounts) only ever hold exact
  decimal constants and `+ / * min` combinations of them; they are
  embedded as exact fractions `Q := Int × Int` (numerator, positive
  denominator), compared by cross multiplication.  `Rat` is avoided only
  because its normalising arithmetic does not reduce inside the kernel;
  `Q` implements the same exact-rational semantics without normalising.
* A Python dict produced by the Plaid client is a structure whose fields
  are `Option`-valued; `d[k]` (which can raise `KeyError`) is the
  `Except`-valued accessor `req`, `d.get(k)` is the `Option` itself.
* The SQLAlchemy async session is a pair of database states: `live` is
  what queries see (the session autoflushes pending objects before a
  query, the sessionmaker default), `committed` is the durable state as
  of the last `commit()`.  `commit` copies `live` into `committed`.
* The sentence-transformer model (`self.model` / `_ml_based_categorization`)
  and `generate_embedding` are floating-point ML inference; they enter the
  embedding as oracle parameters (`Option (String → String × Q)` and
  `String → Option (List Q)`), exactly as wide as their Python interface.
-/

namespace FinRack

/-! ### Python string primitives -/

/-- Python `str.lower()` (ASCII case folding, as `Char.toLower`). -/
def pyLower (s : String) : String := ⟨s.data.map Char.toLower⟩

/-- Drop leading whitespace of a char list. -/
def dropWs (l : List Char) : List Char := l.dropWhile Char.isWhitespace

/-- Python `str.strip()`: drop leading and trailing whitespace. -/
def pyStrip (s : String) : String := ⟨((dropWs s.data).reverse |> dropWs).reverse⟩

/-- Substring occurrence over char lists: does `needle` occur in `hay`? -/
def containsSub (hay needle : List Char) : Bool :=
  match hay with
  | [] => needle.isEmpty
  | _ :: t => needle.isPrefixOf hay || containsSub t needle

/-- Python `needle in hay` on strings (substring containment). -/
def pyIn (needle hay : String) : Bool := containsSub hay.data needle.data

/-! ### Exact fractions

`Q` is an exact rational as a raw numerator/denominator pair (denominator
kept positive by every constructor below).  No normalisation is performed;
the pipeline only ever compares (`< >` by cross multiplication), adds,
multiplies, halves and takes `min`, never tests numeric equality, so the
representative chosen is unobservable to the embedded code. -/

abbrev Q := Int × Int

/-- The fraction `n / d`. -/
def q (n d : Int) : Q := (n, d)

def qzero : Q := (0, 1)

/-- `a < b` by cross multiplication (denominators positive). -/
def qlt (a b : Q) : Bool := a.1 * b.2 < b.1 * a.2

/-- `a > b`. -/
def qgt (a b : Q) : Bool := qlt b a

/-- `a != b` (Python float inequality). -/
def qne (a b : Q) : Bool := a.1 * b.2 != b.1 * a.2

def qadd (a b : Q) : Q := (a.1 * b.2 + b.1 * a.2, a.2 * b.2)

def qmul (a b : Q) : Q := (a.1 * b.1, a.2 * b.2)

/-- `x / 2`. -/
def qhalf (a : Q) : Q := (a.1, a.2 * 2)

def qofNat (n : Nat) : Q := ((n : Int), 1)

/-- Python `min(a, b)`: `b` when `b < a`, else `a`. -/
def qmin (a b : Q) : Q := if qlt b a then b else a

/-! ### Categorizer (`categorization.py`)

`CategorizationService.CATEGORIES`: insertion-ordered dict of
category → keyword list (the `subcategories` entries are never read by
any code path modelled here and are not repeated). -/

def CATEGORIES : List (String × List String) := [
  ("Food & Dining", ["restaurant", "cafe", "coffee", "food", "dining", "pizza", "burger", "sushi", "bar", "pub", "bakery", "grocery", "supermarket", "market"]),
  ("Shopping", ["amazon", "walmart", "target", "store", "shop", "retail", "mall", "clothing", "fashion", "electronics"]),
  ("Transportation", ["uber", "lyft", "taxi", "gas", "fuel", "parking", "metro", "train", "bus", "transit", "airline", "flight"]),
  ("Bills & Utilities", ["electric", "water", "gas", "internet", "phone", "mobile", "utility", "bill", "insurance", "rent", "mortgage"]),
  ("Entertainment", ["netflix", "spotify", "hulu", "disney", "movie", "theater", "cinema", "concert", "game", "gaming", "entertainment"]),
  ("Healthcare", ["doctor", "hospital", "pharmacy", "medical", "health", "clinic", "dental", "dentist", "medicine", "prescription"]),
  ("Travel", ["hotel", "airbnb", "booking", "travel", "vacation", "resort", "airline", "flight", "rental car"]),
  ("Personal Care", ["salon", "spa", "gym", "fitness", "beauty", "haircut", "massage", "cosmetics"]),
  ("Education", ["school", "university", "college", "tuition", "course", "book", "education", "learning"]),
  ("Income", ["salary", "paycheck", "deposit", "income", "payment", "refund", "reimbursement"]),
  ("Transfer", ["transfer", "venmo", "paypal", "zelle", "cashapp", "payment"]),
  ("Uncategorized", [])]

/-- The dict keys of `CATEGORIES` (what `plaid_category in self.CATEGORIES`
tests). -/
def categoryNames : List String := CATEGORIES.map Prod.fst

/-- `self.CATEGORIES['Income']['keywords']`. -/
def incomeKeywords : List String :=
  ((CATEGORIES.find? (fun c => c.1 == "Income")).map Prod.snd).getD []

/-- Python truthiness of an optional float: `None` and `0.0` are falsy. -/
def truthyAmt : Option Q → Bool
  | none => false
  | some a => qne a qzero

/-- Python truthiness of an optional string: `None` and `""` are falsy. -/
def truthyStr : Option String → Bool
  | none => false
  | some s => s != ""

/-- `CategorizationService._rule_based_categorization(text, amount)`.
Constants: `0.9 = q 9 10`, `0.7 = q 7 10`, `0.5 = q 5 10`, `0.1 = q 1 10`. -/
def rule_based_categorization (text : String) (amount : Option Q) : String × Q :=
  let textLower := pyLower text
  -- `if amount and amount < 0:` (income check, Plaid sign convention)
  if truthyAmt amount && qlt (amount.getD qzero) qzero then
    if incomeKeywords.any (fun kw => pyIn kw textLower) then ("Income", q 9 10)
    else ("Income", q 7 10)
  else
    -- fold over the categories in dict (insertion) order, tracking the best
    CATEGORIES.foldl (fun (best : String × Q) cat =>
      if cat.1 == "Uncategorized" then best
      else
        let nmatch := (cat.2.filter (fun kw => pyIn kw textLower)).length
        if nmatch > 0 then
          let confidence := qmin (q 9 10) (qadd (q 5 10) (qmul (qofNat nmatch) (q 1 10)))
          if qgt confidence best.2 then (cat.1, confidence) else best
        else best) ("Uncategorized", qzero)

/-- `CategorizationService.categorize_transaction(description, merchant_name,
plaid_category, amount)`.  `ml` is the sentence-transformer stage
(`self.model` present or `None`; when present, `_ml_based_categorization`
as a function of the combined text). -/
def categorize_transaction (ml : Option (String → String × Q))
    (description : String) (merchant_name : Option String)
    (plaid_category : Option String) (amount : Option Q) : String × Q :=
  -- `if plaid_category and plaid_category in self.CATEGORIES:`
  if truthyStr plaid_category && categoryNames.contains (plaid_category.getD "") then
    (plaid_category.getD "", q 95 100)
  else
    -- `text = f"{description} {merchant_name or ''}".lower().strip()`
    let text := pyStrip (pyLower (description ++ " " ++ merchant_name.getD ""))
    let rb := rule_based_categorization text amount
    if qgt rb.2 (q 8 10) then rb
    else
      match ml with
      | some m =>
        let mlr := m text
        if qgt rb.2 (q 5 10) && qgt mlr.2 (q 5 10) then
          if rb.1 == mlr.1 then (rb.1, qhalf (qadd rb.2 mlr.2))
          else if qgt mlr.2 rb.2 then mlr
          else rb
        else if qgt mlr.2 (q 5 10) then mlr
        else rb
      | none => rb

/-! ### Data model (`models/accounts.py`, `models/transactions.py`)

Only the columns the sync pipeline reads or writes are carried (plus
`user_category`, which guards re-categorization).  The DB-generated
primary key `id` is never consulted by the pipeline and is omitted; a
row's identity is its position in the store list. -/

/-- `BankAccount` (`models/accounts.py`). -/
structure Account where
  id : String
  userId : String
  plaidAccountId : String
  plaidAccessToken : String
  currentBalance : Q
  availableBalance : Option Q
  isActive : Bool
  lastSyncedAt : Option String
  syncStatus : String
  syncError : Option String
deriving DecidableEq, Repr

/-- `Transaction` (`models/transactions.py`): the columns set by
`_process_added_transactions` plus `user_category` (column default
`None`). -/
structure Txn where
  accountId : String
  plaidTransactionId : Option String
  amount : Q
  currency : String
  date : String
  authorizedDate : Option String
  name : String
  originalDescription : Option String
  merchantName : Option String
  merchantEntityId : Option String
  category : Option String
  categoryDetailed : Option String
  categoryConfidence : Option Q
  locationAddress : Option String
  locationCity : Option String
  locationRegion : Option String
  locationPostalCode : Option String
  locationCountry : Option String
  locationLat : Option Q
  locationLon : Option Q
  paymentChannel : Option String
  transactionType : Option String
  isPending : Bool
  userCategory : Option String
  embedding : Option (List Q)
deriving DecidableEq, Repr

/-- The `location` sub-dict of a provider record (`txn_data['location']`,
whose sub-fields are read with `.get`). -/
structure Location where
  address : Option String
  city : Option String
  region : Option String
  postalCode : Option String
  country : Option String
  lat : Option Q
  lon : Option Q
deriving DecidableEq, Repr

/-- One provider transaction record (the `txn_data` dict).  Keys the
pipeline reads with `txn_data[k]` (raising `KeyError` when absent) are
`Option`-valued and go through `req`; keys read with `.get(k)` are the
`Option` itself. -/
structure TxnData where
  transaction_id : Option String
  amount : Option Q
  currency : Option String
  date : Option String
  authorized_date : Option String
  name : Option String
  merchant_name : Option String
  merchant_entity_id : Option String
  category : Option String
  category_detailed : Option String
  location : Option Location
  payment_channel : Option String
  transaction_type : Option String
  is_pending : Option Bool
deriving DecidableEq, Repr

/-- Results of fallible steps (`Except`) need decidable equality so that
concrete runs can be checked by `decide`. -/
instance {ε α : Type} [DecidableEq ε] [DecidableEq α] : DecidableEq (Except ε α) :=
  fun a b =>
    match a, b with
    | Except.ok x, Except.ok y =>
      if h : x = y then isTrue (by rw [h]) else isFalse (by intro hc; cases hc; exact h rfl)
    | Except.error x, Except.error y =>
      if h : x = y then isTrue (by rw [h]) else isFalse (by intro hc; cases hc; exact h rfl)
    | Except.ok _, Except.error _ => isFalse (by intro hc; cases hc)
    | Except.error _, Except.ok _ => isFalse (by intro hc; cases hc)

/-- `d[k]`: required dict access, `KeyError` when the key is missing. -/
def req (o : Option α) (k : String) : Except String α :=
  match o with
  | some a => Except.ok a
  | none => Except.error ("KeyError: " ++ k)

/-! ### Store and session -/

/-- The relational store: `bank_accounts` and `transactions` tables. -/
structure Db where
  accounts : List Account
  txns : List Txn
deriving DecidableEq, Repr

/-- A SQLAlchemy async session over the store.  `live` is the state
queries see (pending `db.add`/attribute mutations are autoflushed before
each query); `committed` is the durable state as of the last
`db.commit()`. -/
structure Session where
  live : Db
  committed : Db
deriving DecidableEq, Repr

/-- `await db.commit()`. -/
def commit (s : Session) : Session := { s with committed := s.live }

/-- `result.scalar_one_or_none()` on the rows matched by a query:
`None` for no row, the row if unique, `MultipleResultsFound` otherwise. -/
def scalarOneOrNone (l : List α) : Except String (Option α) :=
  match l with
  | [] => Except.ok none
  | [a] => Except.ok (some a)
  | _ => Except.error "MultipleResultsFound"

/-- Rows of `transactions` whose `plaid_transaction_id` equals `tid`
(an SQL `NULL` column never matches). -/
def txnsWithId (db : Db) (tid : String) : List Txn :=
  db.txns.filter (fun t => t.plaidTransactionId == some tid)

/-- Mutate the transaction row(s) keyed by `tid` (attribute assignment on
the ORM object found by external id). -/
def updTxn (db : Db) (tid : String) (f : Txn → Txn) : Db :=
  { db with txns := db.txns.map (fun t => if t.plaidTransactionId == some tid then f t else t) }

/-- Mutate the account row keyed by `aid` (attribute assignment on the
bound `account` ORM object). -/
def updAccount (db : Db) (aid : String) (f : Account → Account) : Db :=
  { db with accounts := db.accounts.map (fun a => if a.id == aid then f a else a) }

/-! ### Provider environment (`plaid_service`, oracles) -/

/-- One entry of the `get_balance` response
(`balances[plaid_account_id]`). -/
structure BalanceInfo where
  current : Option Q
  available : Option Q
deriving DecidableEq, Repr

/-- The `plaid_service.sync_transactions` response dict. -/
structure SyncResult where
  added : List TxnData
  modified : List TxnData
  removed : List String
  next_cursor : String
  has_more : Bool
deriving DecidableEq, Repr

/-- Everything the sync task consumes from outside the store: the
categorizer oracles and the provider client's responses for this run. -/
structure Env where
  /-- the sentence-transformer stage of `categorize_transaction` -/
  ml : Option (String → String × Q)
  /-- `categorization_service.generate_embedding` (`None` on failure) -/
  embed : String → Option (List Q)
  /-- response of `plaid_service.sync_transactions(access_token)` -/
  syncResult : SyncResult
  /-- response of `plaid_service.get_transactions(...)` (90-day window) -/
  historical : List TxnData
  /-- response of `plaid_service.get_balance`, keyed by plaid account id -/
  balances : String → Option BalanceInfo
  /-- `datetime.utcnow()` -/
  now : String

/-! ### ReconciliationEngine (`transaction_sync.py`) -/

/-- Loop body of `_process_added_transactions`: look up by external id,
skip if present, otherwise categorize, embed, and build the new row.
Dict accesses happen in source order (select, categorize args, then the
`Transaction(...)` constructor args). -/
def addedRecordStep (env : Env) (account : Account) (live : Db) (d : TxnData) :
    Except String (Option Txn) :=
  match req d.transaction_id "transaction_id" with
  | Except.error e => Except.error e
  | Except.ok tid =>
  match scalarOneOrNone (txnsWithId live tid) with
  | Except.error e => Except.error e
  | Except.ok (some _) => Except.ok none  -- skip duplicates
  | Except.ok none =>
  match req d.name "name" with
  | Except.error e => Except.error e
  | Except.ok nm =>
  match req d.amount "amount" with
  | Except.error e => Except.error e
  | Except.ok amt =>
  let cc := categorize_transaction env.ml nm d.merchant_name d.category (some amt)
  let emb := env.embed (nm ++ " " ++ d.merchant_name.getD "")
  match req d.currency "currency" with
  | Except.error e => Except.error e
  | Except.ok cur =>
  match req d.date "date" with
  | Except.error e => Except.error e
  | Except.ok dt =>
  match req d.location "location" with
  | Except.error e => Except.error e
  | Except.ok loc =>
  match req d.is_pending "is_pending" with
  | Except.error e => Except.error e
  | Except.ok pend =>
  Except.ok (some {
      accountId := account.id
      plaidTransactionId := some tid
      amount := amt
      currency := cur
      date := dt
      authorizedDate := d.authorized_date
      name := nm
      originalDescription := some nm
      merchantName := d.merchant_name
      merchantEntityId := d.merchant_entity_id
      category := some cc.1
      categoryDetailed := d.category_detailed
      categoryConfidence := some cc.2
      locationAddress := loc.address
      locationCity := loc.city
      locationRegion := loc.region
      locationPostalCode := loc.postalCode
      locationCountry := loc.country
      locationLat := loc.lat
      locationLon := loc.lon
      paymentChannel := d.payment_channel
      transactionType := d.transaction_type
      isPending := pend
      userCategory := none
      embedding := emb })

/-- The `for txn_data in transactions:` loop of
`_process_added_transactions`.  An exception propagates immediately,
leaving earlier `db.add` calls pending in the session. -/
def processAddedLoop (env : Env) (account : Account) :
    Session → List TxnData → Nat → Session × Except String Nat
  | s, [], n => (s, Except.ok n)
  | s, d :: rest, n =>
    match addedRecordStep env account s.live d with
    | Except.error e => (s, Except.error e)
    | Except.ok none => processAddedLoop env account s rest n
    | Except.ok (some t) =>
      processAddedLoop env account
        { s with live := { s.live with txns := s.live.txns ++ [t] } } rest (n + 1)

/-- `_process_added_transactions`: the loop, then `await db.commit()`
(reached only when no record raised). -/
def processAdded (env : Env) (account : Account) (s : Session) (batch : List TxnData) :
    Session × Except String Nat :=
  match processAddedLoop env account s batch 0 with
  | (s', Except.ok n) => (commit s', Except.ok n)
  | (s', Except.error e) => (s', Except.error e)

/-- Loop body of `_process_modified_transactions`: look up by external
id; a missing row is skipped (`continue`); otherwise assign the updated
fields one by one (a `KeyError` part-way leaves the earlier assignments
pending in the session), then re-categorize unless the row has a truthy
`user_category`. -/
def processModifiedRecord (env : Env) (s : Session) (d : TxnData) :
    Session × Except String Bool :=
  match req d.transaction_id "transaction_id" with
  | Except.error e => (s, Except.error e)
  | Except.ok tid =>
  match scalarOneOrNone (txnsWithId s.live tid) with
  | Except.error e => (s, Except.error e)
  | Except.ok none => (s, Except.ok false)  -- `continue`: no row, event dropped
  | Except.ok (some t0) =>
  match req d.amount "amount" with
  | Except.error e => (s, Except.error e)
  | Except.ok amt =>
  let s1 := { s with live := updTxn s.live tid (fun t => { t with amount := amt }) }
  match req d.date "date" with
  | Except.error e => (s1, Except.error e)
  | Except.ok dt =>
  let s2 := { s1 with live := updTxn s1.live tid (fun t =>
    { t with date := dt, authorizedDate := d.authorized_date }) }
  match req d.name "name" with
  | Except.error e => (s2, Except.error e)
  | Except.ok nm =>
  let s3 := { s2 with live := updTxn s2.live tid (fun t =>
    { t with name := nm, merchantName := d.merchant_name }) }
  match req d.is_pending "is_pending" with
  | Except.error e => (s3, Except.error e)
  | Except.ok pend =>
  let s4 := { s3 with live := updTxn s3.live tid (fun t => { t with isPending := pend }) }
  -- `if not transaction.user_category:` — don't override user categories
  if truthyStr t0.userCategory then (s4, Except.ok true)
  else
    let cc := categorize_transaction env.ml nm d.merchant_name d.category (some amt)
    (( { s4 with live := updTxn s4.live tid (fun t =>
        { t with category := some cc.1, categoryConfidence := some cc.2 }) } ),
      Except.ok true)

/-- The loop of `_process_modified_transactions`. -/
def processModifiedLoop (env : Env) :
    Session → List TxnData → Nat → Session × Except String Nat
  | s, [], n => (s, Except.ok n)
  | s, d :: rest, n =>
    match processModifiedRecord env s d with
    | (s', Except.error e) => (s', Except.error e)
    | (s', Except.ok counted) =>
      processModifiedLoop env s' rest (if counted then n + 1 else n)

/-- `_process_modified_transactions`: the loop, then `await db.commit()`. -/
def processModified (env : Env) (s : Session) (batch : List TxnData) :
    Session × Except String Nat :=
  match processModifiedLoop env s batch 0 with
  | (s', Except.ok n) => (commit s', Except.ok n)
  | (s', Except.error e) => (s', Except.error e)

/-- The loop of `_process_removed_transactions`: look up each removed id,
delete the row when present, no-op when absent. -/
def processRemovedLoop :
    Session → List String → Nat → Session × Except String Nat
  | s, [], n => (s, Except.ok n)
  | s, tid :: rest, n =>
    match scalarOneOrNone (txnsWithId s.live tid) with
    | Except.error e => (s, Except.error e)
    | Except.ok none => processRemovedLoop s rest n
    | Except.ok (some _) =>
      processRemovedLoop
        { s with live := { s.live with
            txns := s.live.txns.filter (fun t => !(t.plaidTransactionId == some tid)) } }
        rest (n + 1)

/-- `_process_removed_transactions`: the loop, then `await db.commit()`. -/
def processRemoved (s : Session) (ids : List String) : Session × Except String Nat :=
  match processRemovedLoop s ids 0 with
  | (s', Except.ok n) => (commit s', Except.ok n)
  | (s', Except.error e) => (s', Except.error e)

/-- The incremental branch of `_sync_account_transactions_async`:
process the batch's added, then modified, then removed sets, in that
order, propagating the first exception. -/
def incrementalReconcile (env : Env) (account : Account) (s : Session) (r : SyncResult) :
    Session × Except String (Nat × Nat × Nat) :=
  match processAdded env account s r.added with
  | (s1, Except.error e) => (s1, Except.error e)
  | (s1, Except.ok a) =>
    match processModified env s1 r.modified with
    | (s2, Except.error e) => (s2, Except.error e)
    | (s2, Except.ok m) =>
      match processRemoved s2 r.removed with
      | (s3, Except.error e) => (s3, Except.error e)
      | (s3, Except.ok rm) => (s3, Except.ok (a, m, rm))

/-! ### SyncCoordinator (`_sync_account_transactions_async`) -/

/-- The value of the dict returned by `_sync_account_transactions_async`. -/
inductive SyncOutcome where
  /-- `{'error': 'Account not found'}` -/
  | notFound : SyncOutcome
  /-- `{'success': True, 'added': a, 'modified': m, 'removed': r}` -/
  | ok (added modified removed : Nat) : SyncOutcome
  /-- inner `except`: `{'success': False, 'error': msg}` after the
  status update -/
  | failed (msg : String) : SyncOutcome
  /-- outer `except` (database error before the account was loaded) -/
  | dbError (msg : String) : SyncOutcome
deriving DecidableEq, Repr

/-- The body of `_sync_account_transactions_async` once the account row
is bound: unconditionally set `sync_status = 'syncing'` and commit;
choose incremental vs. historical by whether any transaction row exists
for the account; reconcile; then refresh balances, set
`sync_status = 'success'` and commit.  Any exception from the sync block
is caught: `sync_status = 'error'`, `sync_error` set, and a commit
(which also flushes whatever the failed batch left pending in the
session). -/
def syncFound (env : Env) (s : Session) (account : Account) (account_id : String) :
    Session × SyncOutcome :=
    -- `account.sync_status = 'syncing'; await db.commit()`
    let dbSyncing := updAccount s.live account.id (fun a => { a with syncStatus := "syncing" })
    let s0 := commit { s with live := dbSyncing }
    -- `if latest_transaction:` — any row for this account selects the
    -- incremental path
    let recon :=
      if s0.live.txns.any (fun t => t.accountId == account_id) then
        incrementalReconcile env account s0 env.syncResult
      else
        match processAdded env account s0 env.historical with
        | (s1, Except.error e) => (s1, Except.error e)
        | (s1, Except.ok a) => (s1, Except.ok (a, 0, 0))
    match recon with
    | (s', Except.ok (a, m, rm)) =>
      let bal := env.balances account.plaidAccountId
      let s'' := commit { s' with live := updAccount s'.live account.id (fun acc =>
        { acc with
          currentBalance := ((bal.bind BalanceInfo.current).getD acc.currentBalance)
          availableBalance := bal.bind BalanceInfo.available
          syncStatus := "success"
          lastSyncedAt := some env.now
          syncError := none }) }
      (s'', SyncOutcome.ok a m rm)
    | (s', Except.error e) =>
      let s'' := commit { s' with live := updAccount s'.live account.id (fun acc =>
        { acc with syncStatus := "error", syncError := some e }) }
      (s'', SyncOutcome.failed e)

/-- `_sync_account_transactions_async(account_id, user_id)`: load the
account (by id and owner), then run `syncFound` on it. -/
def syncAccountTransactions (env : Env) (s : Session) (account_id user_id : String) :
    Session × SyncOutcome :=
  match scalarOneOrNone (s.live.accounts.filter
      (fun a => a.id == account_id && a.userId == user_id)) with
  | Except.error e => (s, SyncOutcome.dbError e)
  | Except.ok none => (s, SyncOutcome.notFound)
  | Except.ok (some account) => syncFound env s account account_id

/-- The dispatch loop of `_sync_all_accounts_async`: the ids of the
accounts for which a `sync_account_transactions` task is triggered —
every account with `is_active`, with no filter on `sync_status`. -/
def syncAllAccountsDispatched (db : Db) : List String :=
  (db.accounts.filter (fun a => a.isActive)).map (fun a => a.id)

/-- `env` with the provider's returned `next_cursor` and `has_more`
replaced (used to state that the sync never reads either field). -/
def envNC (env : Env) (nc : String) (hm : Bool) : Env :=
  { env with syncResult := { env.syncResult with next_cursor := nc, has_more := hm } }

/-- The combined classification text
`f"{description} {merchant_name or ''}".lower().strip()`. -/
def combinedText (description : String) (merchant_name : Option String) : String :=
  pyStrip (pyLower (description ++ " " ++ merchant_name.getD ""))

/-! ### Concrete fixtures (inputs for witnesses and counterexamples) -/

/-- A linked account, owner `u1`, currently in whatever `sync_status` the
scenario needs (set via structure update). -/
def fxAccount : Account := {
  id := "a1", userId := "u1", plaidAccountId := "pa1", plaidAccessToken := "tok",
  currentBalance := qzero, availableBalance := none, isActive := true,
  lastSyncedAt := none, syncStatus := "pending", syncError := none }

/-- A pre-existing stored transaction of `fxAccount` (its presence makes
the coordinator take the incremental path). -/
def fxTxn0 : Txn := {
  accountId := "a1", plaidTransactionId := some "t0", amount := q 5 1,
  currency := "USD", date := "2025-01-01", authorizedDate := none, name := "old",
  originalDescription := some "old", merchantName := none, merchantEntityId := none,
  category := some "Uncategorized", categoryDetailed := none,
  categoryConfidence := some qzero,
  locationAddress := none, locationCity := none, locationRegion := none,
  locationPostalCode := none, locationCountry := none, locationLat := none,
  locationLon := none, paymentChannel := none, transactionType := none,
  isPending := false, userCategory := none, embedding := none }

/-- An empty `location` sub-dict. -/
def fxLoc : Location := {
  address := none, city := none, region := none, postalCode := none,
  country := none, lat := none, lon := none }

/-- A provider record with every key present and `None` optionals. -/
def fxRec (tid : String) : TxnData := {
  transaction_id := some tid, amount := some (q 475 100), currency := some "USD",
  date := some "2025-02-01", authorized_date := none, name := some "STARBUCKS",
  merchant_name := some "Starbucks", merchant_entity_id := none, category := none,
  category_detailed := none, location := some fxLoc, payment_channel := none,
  transaction_type := none, is_pending := some false }

/-- The well-formed record "A" of the incremental scenario. -/
def fxRecA : TxnData := fxRec "tA"

/-- A malformed record: the required `transaction_id` key is missing. -/
def fxBadNoTid : TxnData := { fxRec "unused" with transaction_id := none }

/-- A malformed record: `transaction_id` present but the required `name`
key is missing. -/
def fxBadNoName : TxnData := { fxRec "tB" with name := none }

/-- An environment with no loaded model, no stored embeddings, a given
incremental response, and no balance entries. -/
def fxEnv (r : SyncResult) : Env := {
  ml := none, embed := fun _ => none, syncResult := r,
  historical := [], balances := fun _ => none, now := "2025-02-02T00:00:00" }

/-- An incremental response with the given added/modified/removed sets,
`next_cursor = "c2"`, `has_more = False`. -/
def fxSyncResult (added modified : List TxnData) (removed : List String) : SyncResult :=
  { added := added, modified := modified, removed := removed,
    next_cursor := "c2", has_more := false }

/-- The store holding `fxAccount` (with the given `sync_status`) and the
old transaction `fxTxn0`; session freshly opened (live = committed). -/
def fxSession (st : String) : Session :=
  let db : Db := { accounts := [{ fxAccount with syncStatus := st }], txns := [fxTxn0] }
  { live := db, committed := db }

/-- Incremental response: one added record `A`, nothing else. -/
def fxEnvAdd : Env := fxEnv (fxSyncResult [fxRecA] [] [])

/-- Incremental response: one modified record whose external id `mX` is
absent from the store. -/
def fxEnvMod : Env := fxEnv (fxSyncResult [] [fxRec "mX"] [])

/-- Incremental response: a good added record, then a malformed modified
record. -/
def fxEnvBadMod : Env := fxEnv (fxSyncResult [fxRecA] [fxBadNoTid] [])

/-- Incremental response: an added batch holding a good record, a
malformed record, then another good record. -/
def fxEnvBadAdd : Env := fxEnv (fxSyncResult [fxRecA, fxBadNoName, fxRec "tC"] [] [])

/-- Incremental response in which the stored id `t0` appears in both the
modified and the removed set. -/
def fxEnvModRem : Env := fxEnv (fxSyncResult [] [fxRec "t0"] ["t0"])

/-- The stored transaction `t0` with a user-set category override. -/
def fxTxnOv : Txn := { fxTxn0 with userCategory := some "Custom" }

/-- A session whose store holds `fxAccount` and the overridden row. -/
def fxSessionOv : Session :=
  let db : Db := { accounts := [fxAccount], txns := [fxTxnOv] }
  { live := db, committed := db }

/-- An empty incremental response. -/
def fxEnvNone : Env := fxEnv (fxSyncResult [] [] [])

/-! ### Helper lemmas -/

theorem mem_categoryNames_ne_empty {pc : String} (h : pc ∈ categoryNames) : pc ≠ "" := by
  intro heq; rw [heq] at h; exact absurd h (by decide)

theorem processAddedLoop_nc (env : Env) (nc : String) (hm : Bool) (a : Account) :
    ∀ (l : List TxnData) (s : Session) (n : Nat),
    processAddedLoop (envNC env nc hm) a s l n = processAddedLoop env a s l n := by
  intro l
  induction l with
  | nil => intro s n; rfl
  | cons d rest ih =>
    intro s n
    simp only [processAddedLoop]
    have h : addedRecordStep (envNC env nc hm) a s.live d = addedRecordStep env a s.live d := rfl
    rw [h]
    cases addedRecordStep env a s.live d with
    | error e => rfl
    | ok o => cases o with
      | none => exact ih s n
      | some t => exact ih _ _

theorem processAdded_nc (env : Env) (nc : String) (hm : Bool) (a : Account)
    (s : Session) (l : List TxnData) :
    processAdded (envNC env nc hm) a s l = processAdded env a s l := by
  unfold processAdded
  rw [processAddedLoop_nc]

theorem processModifiedLoop_nc (env : Env) (nc : String) (hm : Bool) :
    ∀ (l : List TxnData) (s : Session) (n : Nat),
    processModifiedLoop (envNC env nc hm) s l n = processModifiedLoop env s l n := by
  intro l
  induction l with
  | nil => intro s n; rfl
  | cons d rest ih =>
    intro s n
    simp only [processModifiedLoop]
    have h : processModifiedRecord (envNC env nc hm) s d = processModifiedRecord env s d := rfl
    rw [h]
    cases processModifiedRecord env s d with
    | mk s' r => cases r with
      | error e => rfl
      | ok b => exact ih _ _

theorem processModified_nc (env : Env) (nc : String) (hm : Bool)
    (s : Session) (l : List TxnData) :
    processModified (envNC env nc hm) s l = processModified env s l := by
  unfold processModified
  rw [processModifiedLoop_nc]

theorem incrementalReconcile_nc (env : Env) (nc : String) (hm : Bool) (a : Account)
    (s : Session) (r : SyncResult) :
    incrementalReconcile (envNC env nc hm) a s r = incrementalReconcile env a s r := by
  unfold incrementalReconcile
  rw [processAdded_nc]
  cases processAdded env a s r.added with
  | mk s1 r1 => cases r1 with
    | error e => rfl
    | ok n =>
      simp only
      rw [processModified_nc]

/-- An incremental response is consumed only through its
`added`/`modified`/`removed` sets (the cursor fields are never read). -/
theorem incrementalReconcile_sets (env : Env) (a : Account) (s : Session)
    (r r' : SyncResult) (h1 : r.added = r'.added) (h2 : r.modified = r'.modified)
    (h3 : r.removed = r'.removed) :
    incrementalReconcile env a s r = incrementalReconcile env a s r' := by
  unfold incrementalReconcile
  rw [h1, h2, h3]

theorem syncFound_nc (env : Env) (nc : String) (hm : Bool) (s : Session)
    (account : Account) (aid : String) :
    syncFound (envNC env nc hm) s account aid = syncFound env s account aid := by
  simp only [syncFound]
  rw [incrementalReconcile_nc, processAdded_nc,
    incrementalReconcile_sets env account _ ((envNC env nc hm).syncResult)
      env.syncResult rfl rfl rfl]
  rfl

theorem syncAccountTransactions_nc (env : Env) (s : Session) (aid uid nc : String)
    (hm : Bool) :
    syncAccountTransactions (envNC env nc hm) s aid uid
    = syncAccountTransactions env s aid uid := by
  unfold syncAccountTransactions
  cases scalarOneOrNone (s.live.accounts.filter (fun a => a.id == aid && a.userId == uid)) with
  | error e => rfl
  | ok o =>
    cases o with
    | none => rfl
    | some account => exact syncFound_nc env nc hm s account aid

theorem addedRecordStep_acct (env : Env) (a a2 : Account) (hid : a2.id = a.id)
    (live : Db) (d : TxnData) :
    addedRecordStep env a2 live d = addedRecordStep env a live d := by
  unfold addedRecordStep
  simp only [hid]

theorem processAddedLoop_acct (env : Env) (a a2 : Account) (hid : a2.id = a.id) :
    ∀ (l : List TxnData) (s : Session) (n : Nat),
    processAddedLoop env a2 s l n = processAddedLoop env a s l n := by
  intro l
  induction l with
  | nil => intro s n; rfl
  | cons d rest ih =>
    intro s n
    simp only [processAddedLoop]
    rw [addedRecordStep_acct env a a2 hid]
    cases addedRecordStep env a s.live d with
    | error e => rfl
    | ok o => cases o with
      | none => exact ih s n
      | some t => exact ih _ _

theorem processAdded_acct (env : Env) (a a2 : Account) (hid : a2.id = a.id)
    (s : Session) (l : List TxnData) :
    processAdded env a2 s l = processAdded env a s l := by
  unfold processAdded
  rw [processAddedLoop_acct env a a2 hid]

theorem incrementalReconcile_acct (env : Env) (a a2 : Account) (hid : a2.id = a.id)
    (s : Session) (r : SyncResult) :
    incrementalReconcile env a2 s r = incrementalReconcile env a s r := by
  unfold incrementalReconcile
  rw [processAdded_acct env a a2 hid]

theorem syncFound_acct (env : Env) (s : Session) (a a2 : Account) (aid : String)
    (hid : a2.id = a.id) (hpa : a2.plaidAccountId = a.plaidAccountId) :
    syncFound env s a2 aid = syncFound env s a aid := by
  simp only [syncFound, hid, hpa]
  rw [incrementalReconcile_acct env a a2 hid, processAdded_acct env a a2 hid]

theorem updAccount_status_twice (db : Db) (aid st : String) :
    updAccount (updAccount db aid (fun a => { a with syncStatus := st })) aid
      (fun a => { a with syncStatus := "syncing" })
    = updAccount db aid (fun a => { a with syncStatus := "syncing" }) := by
  unfold updAccount
  simp only [List.map_map]
  congr 1
  apply List.map_congr_left
  intro a _
  by_cases hc : (a.id == aid) = true <;> simp [Function.comp, hc]

theorem syncAccountTransactions_status (env : Env) (s : Session) (aid uid st : String)
    (acct : Account)
    (hfound : s.live.accounts.filter (fun a => a.id == aid && a.userId == uid) = [acct]) :
    syncAccountTransactions env
      { live := updAccount s.live aid (fun a => { a with syncStatus := st }),
        committed := s.committed } aid uid
    = syncAccountTransactions env s aid uid := by
  have hmem : acct ∈ s.live.accounts.filter (fun a => a.id == aid && a.userId == uid) := by
    rw [hfound]; exact List.mem_singleton_self acct
  have hp := (List.mem_filter.mp hmem).2
  rw [Bool.and_eq_true] at hp
  have hidb : (acct.id == aid) = true := hp.1
  have hid : acct.id = aid := beq_iff_eq.mp hidb
  have hfilter : (updAccount s.live aid (fun a => { a with syncStatus := st })).accounts.filter
      (fun a => a.id == aid && a.userId == uid) = [{ acct with syncStatus := st }] := by
    unfold updAccount
    simp only
    rw [List.filter_map, List.filter_congr ?hpg, hfound]
    · simp only [List.map_cons, List.map_nil, if_pos hidb]
    case hpg =>
      intro a _
      by_cases hc : (a.id == aid) = true <;> simp [Function.comp, hc]
  unfold syncAccountTransactions
  simp only [hfilter, hfound, scalarOneOrNone]
  rw [syncFound_acct env _ acct { acct with syncStatus := st } aid rfl rfl]
  simp only [syncFound]
  rw [hid, updAccount_status_twice]

theorem processAddedLoop_committed (env : Env) (a : Account) :
    ∀ (l : List TxnData) (s : Session) (n : Nat) (s' : Session) (r : Except String Nat),
    processAddedLoop env a s l n = (s', r) → s'.committed = s.committed := by
  intro l
  induction l with
  | nil => intro s n s' r h; cases h; rfl
  | cons d rest ih =>
    intro s n s' r h
    simp only [processAddedLoop] at h
    cases hs : addedRecordStep env a s.live d with
    | error e => simp only [hs] at h; cases h; rfl
    | ok o =>
      cases o with
      | none => simp only [hs] at h; exact ih s n s' r h
      | some t =>
        simp only [hs] at h
        have hc := ih _ (n + 1) s' r h
        exact hc

theorem processAdded_ok_committed (env : Env) (a : Account) (s : Session)
    (l : List TxnData) (s' : Session) (n : Nat)
    (h : processAdded env a s l = (s', Except.ok n)) : s'.committed = s'.live := by
  unfold processAdded at h
  cases hl : processAddedLoop env a s l 0 with
  | mk s0 r0 =>
    rw [hl] at h
    cases r0 with
    | error e => cases h
    | ok m => cases h; rfl

theorem processModifiedRecord_committed (env : Env) (s : Session) (d : TxnData)
    (s' : Session) (r : Except String Bool)
    (h : processModifiedRecord env s d = (s', r)) : s'.committed = s.committed := by
  simp only [processModifiedRecord] at h
  repeat' split at h
  all_goals (cases h; rfl)

theorem processModifiedLoop_committed (env : Env) :
    ∀ (l : List TxnData) (s : Session) (n : Nat) (s' : Session) (r : Except String Nat),
    processModifiedLoop env s l n = (s', r) → s'.committed = s.committed := by
  intro l
  induction l with
  | nil => intro s n s' r h; cases h; rfl
  | cons d rest ih =>
    intro s n s' r h
    simp only [processModifiedLoop] at h
    cases hs : processModifiedRecord env s d with
    | mk s1 r1 =>
      rw [hs] at h
      cases r1 with
      | error e =>
        cases h
        exact processModifiedRecord_committed env s d _ _ hs
      | ok b =>
        rw [ih s1 _ s' r h]
        exact processModifiedRecord_committed env s d _ _ hs

theorem processModified_error_committed (env : Env) (s : Session) (l : List TxnData)
    (s' : Session) (e : String)
    (h : processModified env s l = (s', Except.error e)) : s'.committed = s.committed := by
  unfold processModified at h
  cases hl : processModifiedLoop env s l 0 with
  | mk s0 r0 =>
    rw [hl] at h
    cases r0 with
    | error e0 =>
      cases h
      exact processModifiedLoop_committed env l s 0 _ _ hl
    | ok m => cases h

theorem processAddedLoop_append (env : Env) (a : Account) :
    ∀ (l1 : List TxnData) (s : Session) (n : Nat) (s1 : Session) (m : Nat)
      (l2 : List TxnData),
    processAddedLoop env a s l1 n = (s1, Except.ok m) →
    processAddedLoop env a s (l1 ++ l2) n = processAddedLoop env a s1 l2 m := by
  intro l1
  induction l1 with
  | nil => intro s n s1 m l2 h; cases h; rfl
  | cons d rest ih =>
    intro s n s1 m l2 h
    simp only [processAddedLoop, List.cons_append] at h ⊢
    cases hs : addedRecordStep env a s.live d with
    | error e => simp only [hs] at h; simp at h
    | ok o =>
      cases o with
      | none => simp only [hs] at h ⊢; exact ih s n s1 m l2 h
      | some t =>
        simp only [hs] at h ⊢
        have hc := ih _ (n + 1) s1 m l2 h
        exact hc

/-! ### Claim theorems -/

/-- Claim C1, counterexample: an account whose `sync_status` is already
`syncing` is still dispatched by the scheduler, and a sync request for it
is not rejected — it runs to completion (outcome `ok 1 0 0`, final status
`success`), contradicting the claimed "sync already in progress"
rejection. -/
theorem C1_counterexample :
    "a1" ∈ syncAllAccountsDispatched (fxSession "syncing").live ∧
    (syncAccountTransactions fxEnvAdd (fxSession "syncing") "a1" "u1").2
      = SyncOutcome.ok 1 0 0 ∧
    ((syncAccountTransactions fxEnvAdd (fxSession "syncing") "a1" "u1").1.committed.accounts.map
      Account.syncStatus) = ["success"] := by
  decide

/-- Claim C1, amended: there is no `syncing` guard.  A sync request
behaves identically whatever the account's stored `sync_status` (in
particular `'syncing'`), and the scheduler dispatches every active
account with no filter on `sync_status`. -/
theorem C1_no_syncing_guard :
    (∀ (env : Env) (s : Session) (aid uid st : String) (acct : Account),
      s.live.accounts.filter (fun a => a.id == aid && a.userId == uid) = [acct] →
      syncAccountTransactions env
        { live := updAccount s.live aid (fun a => { a with syncStatus := st }),
          committed := s.committed } aid uid
      = syncAccountTransactions env s aid uid) ∧
    (∀ (db : Db) (a : Account), a ∈ db.accounts → a.isActive = true →
      a.id ∈ syncAllAccountsDispatched db) := by
  constructor
  · intro env s aid uid st acct h
    exact syncAccountTransactions_status env s aid uid st acct h
  · intro db a hmem hact
    exact List.mem_map_of_mem _ (List.mem_filter.mpr ⟨hmem, hact⟩)

/-- Witness for C1_no_syncing_guard at concrete inputs: overwriting the
stored status with `'syncing'` changes nothing about the sync, and the
active fixture account is dispatched. -/
theorem C1_no_syncing_guard_witness :
    (syncAccountTransactions fxEnvAdd
      { live := updAccount (fxSession "success").live "a1"
          (fun a => { a with syncStatus := "syncing" }),
        committed := (fxSession "success").committed } "a1" "u1"
      = syncAccountTransactions fxEnvAdd (fxSession "success") "a1" "u1") ∧
    "a1" ∈ syncAllAccountsDispatched (fxSession "success").live :=
  ⟨C1_no_syncing_guard.1 fxEnvAdd (fxSession "success") "a1" "u1" "syncing"
      { fxAccount with syncStatus := "success" } (by decide),
    C1_no_syncing_guard.2 (fxSession "success").live { fxAccount with syncStatus := "success" }
      (by decide) (by decide)⟩

/-- Claim C2, counterexample: the provider's returned `next_cursor` is
never persisted — running the claimed scenario (one added record `A`,
`next_cursor = "c2"`) produces the very same final state as running it
with any other cursor value, and the `BankAccount` model stores no
cursor at all; transaction A does exist afterwards. -/
theorem C2_counterexample :
    syncAccountTransactions (envNC fxEnvAdd "completely-different-cursor" true)
        (fxSession "success") "a1" "u1"
      = syncAccountTransactions fxEnvAdd (fxSession "success") "a1" "u1" ∧
    (txnsWithId (syncAccountTransactions fxEnvAdd (fxSession "success") "a1" "u1").1.committed
      "tA").length = 1 :=
  ⟨syncAccountTransactions_nc fxEnvAdd (fxSession "success") "a1" "u1" _ _, by decide⟩

/-- Claim C2, amended: after the successful incremental sync of the
scenario, transaction A exists, but no cursor is persisted: the account
model has no cursor column and the sync's entire observable behaviour is
independent of the provider's returned `next_cursor`/`has_more`. -/
theorem C2_cursor_never_persisted :
    (∀ (env : Env) (s : Session) (aid uid nc : String) (hm : Bool),
      syncAccountTransactions (envNC env nc hm) s aid uid
      = syncAccountTransactions env s aid uid) ∧
    (syncAccountTransactions fxEnvAdd (fxSession "success") "a1" "u1").2
      = SyncOutcome.ok 1 0 0 ∧
    (txnsWithId (syncAccountTransactions fxEnvAdd (fxSession "success") "a1" "u1").1.committed
      "tA").length = 1 :=
  ⟨fun env s aid uid nc hm => syncAccountTransactions_nc env s aid uid nc hm,
    by decide, by decide⟩

/-- Claim C6, counterexample: a `modified` event whose external id `mX`
is absent from the store is not treated as an implicit add — the sync
succeeds with `modified = 0` and no row with id `mX` exists afterwards. -/
theorem C6_counterexample :
    (syncAccountTransactions fxEnvMod (fxSession "success") "a1" "u1").2
      = SyncOutcome.ok 0 0 0 ∧
    txnsWithId (syncAccountTransactions fxEnvMod (fxSession "success") "a1" "u1").1.committed
      "mX" = [] ∧
    txnsWithId (syncAccountTransactions fxEnvMod (fxSession "success") "a1" "u1").1.live
      "mX" = [] := by
  decide

/-- Claim C6, amended: a `modified` event whose external id is absent
from the store is skipped (`continue`): no row is inserted, the event is
not counted, and the store is left unchanged (up to the phase commit). -/
theorem C6_modified_absent_skipped (env : Env) (s : Session) (d : TxnData) (tid : String)
    (h1 : d.transaction_id = some tid) (h2 : txnsWithId s.live tid = []) :
    processModified env s [d] = (commit s, Except.ok 0) := by
  unfold processModified processModifiedLoop processModifiedRecord
  rw [h1]
  simp only [req, h2, scalarOneOrNone]
  rfl

/-- Witness for C6_modified_absent_skipped. -/
theorem C6_modified_absent_skipped_witness :
    processModified fxEnvMod (fxSession "success") [fxRec "mX"]
      = (commit (fxSession "success"), Except.ok 0) :=
  C6_modified_absent_skipped fxEnvMod (fxSession "success") (fxRec "mX") "mX"
    (by decide) (by decide)

/-- Claim C7, counterexample: the batch (added `A`, malformed modified
record) faults during the modified phase, yet the batch's insert of A is
durably applied — the committed store gained row `tA` even though the
sync failed — so a faulted batch is not rolled back to the pre-batch
state. -/
theorem C7_counterexample :
    (syncAccountTransactions fxEnvBadMod (fxSession "success") "a1" "u1").2
      = SyncOutcome.failed "KeyError: transaction_id" ∧
    (txnsWithId (fxSession "success").committed "tA").length = 0 ∧
    (txnsWithId (syncAccountTransactions fxEnvBadMod (fxSession "success") "a1" "u1").1.committed
      "tA").length = 1 ∧
    ((syncAccountTransactions fxEnvBadMod (fxSession "success") "a1" "u1").1.committed.accounts.map
      Account.syncStatus) = ["error"] := by
  decide

/-- Claim C7, amended: a reconciliation batch is not one atomic unit.
Each phase commits separately: when the added phase succeeds and the
modified phase faults, the reconcile reports the fault, but the added
phase's effects are already durable (the committed store equals the
post-added live store, not the pre-batch store). -/
theorem C7_not_atomic (env : Env) (acct : Account) (s : Session) (r : SyncResult)
    (s1 s2 : Session) (a : Nat) (e : String)
    (hA : processAdded env acct s r.added = (s1, Except.ok a))
    (hM : processModified env s1 r.modified = (s2, Except.error e)) :
    incrementalReconcile env acct s r = (s2, Except.error e) ∧
    s1.committed = s1.live ∧ s2.committed = s1.live := by
  refine ⟨?_, ?_, ?_⟩
  · unfold incrementalReconcile
    simp only [hA, hM]
  · exact processAdded_ok_committed env acct s r.added s1 a hA
  · rw [processModified_error_committed env s1 r.modified s2 e hM]
    exact processAdded_ok_committed env acct s r.added s1 a hA

/-- Witness for C7_not_atomic on the concrete faulting batch. -/
theorem C7_not_atomic_witness :
    incrementalReconcile fxEnvBadMod { fxAccount with syncStatus := "syncing" }
        (commit (fxSession "syncing")) fxEnvBadMod.syncResult
      = ((processModified fxEnvBadMod
          (processAdded fxEnvBadMod { fxAccount with syncStatus := "syncing" }
            (commit (fxSession "syncing")) fxEnvBadMod.syncResult.added).1
          fxEnvBadMod.syncResult.modified).1,
        Except.error "KeyError: transaction_id") :=
  (C7_not_atomic fxEnvBadMod { fxAccount with syncStatus := "syncing" }
    (commit (fxSession "syncing")) fxEnvBadMod.syncResult
    (processAdded fxEnvBadMod { fxAccount with syncStatus := "syncing" }
      (commit (fxSession "syncing")) fxEnvBadMod.syncResult.added).1
    (processModified fxEnvBadMod
      (processAdded fxEnvBadMod { fxAccount with syncStatus := "syncing" }
        (commit (fxSession "syncing")) fxEnvBadMod.syncResult.added).1
      fxEnvBadMod.syncResult.modified).1
    1 "KeyError: transaction_id" (by decide) (by decide)).1

/-- Claim C8, counterexample: a malformed record in the middle of an
added batch is not skipped — the sync aborts with a `KeyError`, the
later good record `tC` is never stored, `sync_status` ends up `error`,
and the earlier good record `tA` is flushed by the error-path commit. -/
theorem C8_counterexample :
    (syncAccountTransactions fxEnvBadAdd (fxSession "success") "a1" "u1").2
      = SyncOutcome.failed "KeyError: name" ∧
    txnsWithId (syncAccountTransactions fxEnvBadAdd (fxSession "success") "a1" "u1").1.committed
      "tC" = [] ∧
    (txnsWithId (syncAccountTransactions fxEnvBadAdd (fxSession "success") "a1" "u1").1.committed
      "tA").length = 1 ∧
    ((syncAccountTransactions fxEnvBadAdd (fxSession "success") "a1" "u1").1.committed.accounts.map
      Account.syncStatus) = ["error"] := by
  decide

/-- Claim C8, amended: a malformed record aborts the added phase at that
record: the exception propagates (so the remaining records of the batch
are never processed and the phase itself commits nothing), with the
session holding the records processed before the fault. -/
theorem C8_malformed_aborts (env : Env) (acct : Account) (s : Session)
    (pre rest : List TxnData) (d : TxnData) (s1 : Session) (n : Nat) (e : String)
    (hpre : processAddedLoop env acct s pre 0 = (s1, Except.ok n))
    (hbad : addedRecordStep env acct s1.live d = Except.error e) :
    processAdded env acct s (pre ++ d :: rest) = (s1, Except.error e) ∧
    s1.committed = s.committed := by
  constructor
  · unfold processAdded
    rw [processAddedLoop_append env acct pre s 0 s1 n (d :: rest) hpre]
    simp only [processAddedLoop, hbad]
  · exact processAddedLoop_committed env acct pre s 0 s1 (Except.ok n) hpre

/-- Witness for C8_malformed_aborts on the concrete batch. -/
theorem C8_malformed_aborts_witness :
    processAdded fxEnvBadAdd { fxAccount with syncStatus := "syncing" }
        (commit (fxSession "syncing")) ([fxRecA] ++ fxBadNoName :: [fxRec "tC"])
      = ((processAddedLoop fxEnvBadAdd { fxAccount with syncStatus := "syncing" }
          (commit (fxSession "syncing")) [fxRecA] 0).1, Except.error "KeyError: name") :=
  (C8_malformed_aborts fxEnvBadAdd { fxAccount with syncStatus := "syncing" }
    (commit (fxSession "syncing")) [fxRecA] [fxRec "tC"] fxBadNoName
    (processAddedLoop fxEnvBadAdd { fxAccount with syncStatus := "syncing" }
      (commit (fxSession "syncing")) [fxRecA] 0).1
    1 "KeyError: name" (by decide) (by decide)).1

/-- Claim C9, counterexample: a classification input with a strongly
negative amount does not short-circuit to `Income` — a provider category
hint is consulted first and wins (`Shopping`, 0.95), even with the model
loaded. -/
theorem C9_counterexample :
    qlt (q (-50) 1) qzero = true ∧
    categorize_transaction (some (fun _ => ("Uncategorized", qzero))) "x" none
      (some "Shopping") (some (q (-50) 1)) = ("Shopping", q 95 100) := by
  decide

/-- Claim C9, amended: with no applicable provider hint, a negative
amount makes the keyword stage return `Income` (0.9 with an income
keyword in the text, else 0.7); only in the keyword case does its 0.9
confidence exceed the 0.8 threshold, bypassing the semantic stage, so
the final result is `Income` at 0.9 for every model. -/
theorem C9_income_rule (ml : Option (String → String × Q)) (description : String)
    (merchant_name : Option String) (amt : Q)
    (hneg : qlt amt qzero = true) :
    (rule_based_categorization (combinedText description merchant_name) (some amt)).1
      = "Income" ∧
    (incomeKeywords.any
        (fun kw => pyIn kw (pyLower (combinedText description merchant_name))) = true →
      categorize_transaction ml description merchant_name none (some amt)
        = ("Income", q 9 10)) := by
  have hne : qne amt qzero = true := by
    simp only [qlt, qzero, decide_eq_true_eq] at hneg
    simp only [qne, qzero, bne_iff_ne, ne_eq]
    exact ne_of_lt hneg
  have hguard : (truthyAmt (some amt) && qlt ((some amt).getD qzero) qzero) = true := by
    simp only [truthyAmt, Option.getD, hne, hneg, Bool.and_self]
  have hrb : ∀ hkw : incomeKeywords.any
      (fun kw => pyIn kw (pyLower (combinedText description merchant_name))) = true,
      rule_based_categorization (combinedText description merchant_name) (some amt)
        = ("Income", q 9 10) := by
    intro hkw
    simp only [rule_based_categorization]
    rw [if_pos hguard, if_pos hkw]
  constructor
  · simp only [rule_based_categorization]
    rw [if_pos hguard]
    by_cases hkw : incomeKeywords.any
        (fun kw => pyIn kw (pyLower (combinedText description merchant_name))) = true
    · rw [if_pos hkw]
    · rw [if_neg hkw]
  · intro hkw
    simp only [categorize_transaction]
    rw [if_neg (by simp [truthyStr])]
    show (let text := combinedText description merchant_name
      let rb := rule_based_categorization text (some amt)
      if qgt rb.2 (q 8 10) then rb
      else
        match ml with
        | some m =>
          let mlr := m text
          if qgt rb.2 (q 5 10) && qgt mlr.2 (q 5 10) then
            if rb.1 == mlr.1 then (rb.1, qhalf (qadd rb.2 mlr.2))
            else if qgt mlr.2 rb.2 then mlr
            else rb
          else if qgt mlr.2 (q 5 10) then mlr
          else rb
        | none => rb) = ("Income", q 9 10)
    simp only [hrb hkw]
    rw [if_pos (by decide)]

/-- Witness for C9_income_rule on a negative-amount paycheck. -/
theorem C9_income_rule_witness :
    (rule_based_categorization (combinedText "PAYCHECK Deposit" none) (some (q (-50) 1))).1
      = "Income" ∧
    categorize_transaction (some (fun _ => ("Shopping", q 85 100))) "PAYCHECK Deposit" none
      none (some (q (-50) 1)) = ("Income", q 9 10) :=
  ⟨(C9_income_rule (some (fun _ => ("Shopping", q 85 100))) "PAYCHECK Deposit" none
      (q (-50) 1) (by decide)).1,
    (C9_income_rule (some (fun _ => ("Shopping", q 85 100))) "PAYCHECK Deposit" none
      (q (-50) 1) (by decide)).2 (by decide)⟩

/-- Claim C10: a truthy provider category hint that names a known
category short-circuits classification — the hint is returned with
confidence exactly 0.95, for every description, merchant, amount, and
model state (none of them are consulted). -/
theorem C10_plaid_hint_short_circuits (ml : Option (String → String × Q))
    (description : String) (merchant_name : Option String) (amount : Option Q)
    (pc : String) (h : pc ∈ categoryNames) :
    categorize_transaction ml description merchant_name (some pc) amount
      = (pc, q 95 100) := by
  have hne : pc ≠ "" := mem_categoryNames_ne_empty h
  have h1 : truthyStr (some pc) = true := by
    simp only [truthyStr, bne_iff_ne, ne_eq]
    exact hne
  have h2 : categoryNames.contains pc = true := List.elem_iff.mpr h
  unfold categorize_transaction
  simp only [Option.getD, h1, h2, Bool.and_self, if_true]

/-- Witness for C10_plaid_hint_short_circuits. -/
theorem C10_plaid_hint_short_circuits_witness :
    categorize_transaction (some (fun _ => ("Food & Dining", q 99 100))) "irrelevant"
      (some "also irrelevant") (some "Travel") (some (q 475 100)) = ("Travel", q 95 100) :=
  C10_plaid_hint_short_circuits (some (fun _ => ("Food & Dining", q 99 100))) "irrelevant"
    (some "also irrelevant") (some (q 475 100)) "Travel" (by decide)

theorem scalarOneOrNone_ok_none {α : Type} {l : List α}
    (h : scalarOneOrNone l = Except.ok none) : l = [] := by
  cases l with
  | nil => rfl
  | cons a t => cases t <;> simp [scalarOneOrNone] at h

theorem scalarOneOrNone_ok_some {α : Type} {l : List α} {a : α}
    (h : scalarOneOrNone l = Except.ok (some a)) : l = [a] := by
  cases l with
  | nil => simp [scalarOneOrNone] at h
  | cons b t =>
    cases t with
    | nil => simp [scalarOneOrNone] at h; rw [h]
    | cons c t2 => simp [scalarOneOrNone] at h

theorem txnsWithId_filter_sub (db : Db) (tid : String) (pred : Txn → Bool)
    (h : txnsWithId db tid = []) :
    txnsWithId { db with txns := db.txns.filter pred } tid = [] := by
  simp only [txnsWithId, List.eq_nil_iff_forall_not_mem, List.mem_filter] at h ⊢
  intro x hx
  exact h x ⟨hx.1.1, hx.2⟩

theorem txnsWithId_after_delete (db : Db) (tid : String) :
    txnsWithId { db with
      txns := db.txns.filter (fun t => !(t.plaidTransactionId == some tid)) } tid = [] := by
  apply List.eq_nil_iff_forall_not_mem.mpr
  intro x hx
  have h1 := List.mem_filter.mp hx
  have h2 := (List.mem_filter.mp h1.1).2
  rw [h1.2] at h2
  exact absurd h2 (by decide)

theorem processRemovedLoop_absent (tid : String) :
    ∀ (ids : List String) (s : Session) (n : Nat) (s' : Session) (r : Except String Nat),
    processRemovedLoop s ids n = (s', r) → txnsWithId s.live tid = [] →
    txnsWithId s'.live tid = [] := by
  intro ids
  induction ids with
  | nil => intro s n s' r h habs; cases h; exact habs
  | cons tid0 rest ih =>
    intro s n s' r h habs
    simp only [processRemovedLoop] at h
    cases hs : scalarOneOrNone (txnsWithId s.live tid0) with
    | error e => simp only [hs] at h; cases h; exact habs
    | ok o =>
      cases o with
      | none => simp only [hs] at h; exact ih s n s' r h habs
      | some t =>
        simp only [hs] at h
        have hc := ih _ (n + 1) s' r h
        exact hc (txnsWithId_filter_sub s.live tid _ habs)

theorem processRemovedLoop_removes (tid : String) :
    ∀ (ids : List String) (s : Session) (n : Nat) (s' : Session) (m : Nat),
    processRemovedLoop s ids n = (s', Except.ok m) → tid ∈ ids →
    txnsWithId s'.live tid = [] := by
  intro ids
  induction ids with
  | nil => intro s n s' m h hmem; cases hmem
  | cons tid0 rest ih =>
    intro s n s' m h hmem
    simp only [processRemovedLoop] at h
    cases hs : scalarOneOrNone (txnsWithId s.live tid0) with
    | error e => simp only [hs] at h; simp at h
    | ok o =>
      rcases List.mem_cons.mp hmem with heq | hrest
      · subst heq
        cases o with
        | none =>
          simp only [hs] at h
          exact processRemovedLoop_absent tid rest s n s' _ h (scalarOneOrNone_ok_none hs)
        | some t =>
          simp only [hs] at h
          exact processRemovedLoop_absent tid rest _ (n + 1) s' _ h
            (txnsWithId_after_delete s.live tid)
      · cases o with
        | none => simp only [hs] at h; exact ih s n s' m h hrest
        | some t => simp only [hs] at h; exact ih _ (n + 1) s' m h hrest

/-- Claim C5: within one incremental batch added is processed first,
then modified, then removed; consequently any id in the removed set
(in particular one also in modified) is absent from the store — live
and durable — after the batch reconciles successfully. -/
theorem C5_removal_wins (env : Env) (acct : Account) (s : Session) (r : SyncResult)
    (s' : Session) (counts : Nat × Nat × Nat) (tid : String)
    (h : incrementalReconcile env acct s r = (s', Except.ok counts))
    (_hmod : ∃ d ∈ r.modified, d.transaction_id = some tid)
    (hrem : tid ∈ r.removed) :
    txnsWithId s'.live tid = [] ∧ txnsWithId s'.committed tid = [] := by
  unfold incrementalReconcile at h
  cases hA : processAdded env acct s r.added with
  | mk s1 r1 =>
    rw [hA] at h
    cases r1 with
    | error e => simp at h
    | ok a =>
      simp only at h
      cases hM : processModified env s1 r.modified with
      | mk s2 r2 =>
        rw [hM] at h
        cases r2 with
        | error e => simp at h
        | ok m =>
          simp only at h
          cases hR : processRemoved s2 r.removed with
          | mk s3 r3 =>
            rw [hR] at h
            cases r3 with
            | error e => simp at h
            | ok rm =>
              simp only at h
              cases h
              unfold processRemoved at hR
              cases hL : processRemovedLoop s2 r.removed 0 with
              | mk s0 r0 =>
                rw [hL] at hR
                cases r0 with
                | error e => simp at hR
                | ok m0 =>
                  cases hR
                  have hnil := processRemovedLoop_removes tid r.removed s2 0 _ _ hL hrem
                  exact ⟨hnil, hnil⟩

/-- Witness for C5_removal_wins: id `t0` is in both the modified and
removed sets; it is gone after the batch. -/
theorem C5_removal_wins_witness :
    txnsWithId (incrementalReconcile fxEnvModRem { fxAccount with syncStatus := "syncing" }
      (commit (fxSession "syncing")) fxEnvModRem.syncResult).1.live "t0" = [] ∧
    txnsWithId (incrementalReconcile fxEnvModRem { fxAccount with syncStatus := "syncing" }
      (commit (fxSession "syncing")) fxEnvModRem.syncResult).1.committed "t0" = [] :=
  C5_removal_wins fxEnvModRem { fxAccount with syncStatus := "syncing" }
    (commit (fxSession "syncing")) fxEnvModRem.syncResult
    (incrementalReconcile fxEnvModRem { fxAccount with syncStatus := "syncing" }
      (commit (fxSession "syncing")) fxEnvModRem.syncResult).1
    (0, 1, 1) "t0" (by decide) (by decide) (by decide)

theorem txnsWithId_updTxn_self (db : Db) (tid : String) (f : Txn → Txn)
    (hf : ∀ t, (f t).plaidTransactionId = t.plaidTransactionId) :
    txnsWithId (updTxn db tid f) tid = (txnsWithId db tid).map f := by
  show List.filter _ (List.map _ _) = _
  rw [List.filter_map, List.filter_congr ?hq]
  · apply List.map_congr_left
    intro t ht
    have hp := (List.mem_filter.mp ht).2
    simp only [if_pos hp]
  case hq =>
    intro t _
    show ((if (t.plaidTransactionId == some tid) = true then f t
      else t).plaidTransactionId == some tid) = (t.plaidTransactionId == some tid)
    by_cases hk : (t.plaidTransactionId == some tid) = true
    · rw [if_pos hk, hf t]
    · rw [if_neg hk]

/-- Claim C3: a modified event updates amount, date (and authorized
date), description (`name`), merchant name, and pending flag of the
stored row; when the row carries a truthy user category override the
category and confidence are left untouched, and when it does not,
classification is re-run and both are updated. -/
theorem C3_override_preserved (env : Env) (s : Session) (d : TxnData) (tid : String)
    (t : Txn) (amt : Q) (dt nm : String) (pend : Bool)
    (htid : d.transaction_id = some tid)
    (hamt : d.amount = some amt) (hdt : d.date = some dt) (hnm : d.name = some nm)
    (hpend : d.is_pending = some pend)
    (hU : txnsWithId s.live tid = [t]) :
    ∃ t',
      txnsWithId (processModified env s [d]).1.live tid = [t'] ∧
      txnsWithId (processModified env s [d]).1.committed tid = [t'] ∧
      (processModified env s [d]).2 = Except.ok 1 ∧
      t'.amount = amt ∧ t'.date = dt ∧ t'.name = nm ∧
      t'.authorizedDate = d.authorized_date ∧ t'.merchantName = d.merchant_name ∧
      t'.isPending = pend ∧ t'.userCategory = t.userCategory ∧
      (truthyStr t.userCategory = true →
        t'.category = t.category ∧ t'.categoryConfidence = t.categoryConfidence) ∧
      (truthyStr t.userCategory = false →
        t'.category
            = some (categorize_transaction env.ml nm d.merchant_name d.category (some amt)).1 ∧
        t'.categoryConfidence
            = some (categorize_transaction env.ml nm d.merchant_name d.category (some amt)).2) := by
  have hone : scalarOneOrNone (txnsWithId s.live tid) = Except.ok (some t) := by
    rw [hU]; rfl
  by_cases hov : truthyStr t.userCategory = true
  · refine ⟨{ t with amount := amt, date := dt, authorizedDate := d.authorized_date, name := nm, merchantName := d.merchant_name, isPending := pend }, ?_⟩
    have hrun : processModified env s [d] = (commit { s with live := updTxn (updTxn (updTxn (updTxn s.live tid (fun t => { t with amount := amt })) tid (fun t => { t with date := dt, authorizedDate := d.authorized_date })) tid (fun t => { t with name := nm, merchantName := d.merchant_name })) tid (fun t => { t with isPending := pend }) }, Except.ok 1) := by
      unfold processModified processModifiedLoop processModifiedRecord
      rw [htid]
      simp only [req, hone, hamt, hdt, hnm, hpend, hov, if_true]
      rfl
    rw [hrun]
    have hl : txnsWithId (updTxn (updTxn (updTxn (updTxn s.live tid (fun t => { t with amount := amt })) tid (fun t => { t with date := dt, authorizedDate := d.authorized_date })) tid (fun t => { t with name := nm, merchantName := d.merchant_name })) tid (fun t => { t with isPending := pend })) tid = [{ t with amount := amt, date := dt, authorizedDate := d.authorized_date, name := nm, merchantName := d.merchant_name, isPending := pend }] := by
      rw [txnsWithId_updTxn_self _ _ _ (by intro u; rfl),
        txnsWithId_updTxn_self _ _ _ (by intro u; rfl),
        txnsWithId_updTxn_self _ _ _ (by intro u; rfl),
        txnsWithId_updTxn_self _ _ _ (by intro u; rfl), hU]
      rfl
    refine ⟨hl, hl, rfl, rfl, rfl, rfl, rfl, rfl, rfl, rfl, fun _ => ⟨rfl, rfl⟩, ?_⟩
    intro hcon
    rw [hov] at hcon
    cases hcon
  · rw [Bool.not_eq_true] at hov
    refine ⟨{ t with amount := amt, date := dt, authorizedDate := d.authorized_date, name := nm, merchantName := d.merchant_name, isPending := pend, category := some (categorize_transaction env.ml nm d.merchant_name d.category (some amt)).1, categoryConfidence := some (categorize_transaction env.ml nm d.merchant_name d.category (some amt)).2 }, ?_⟩
    have hrun : processModified env s [d] = (commit { s with live := updTxn (updTxn (updTxn (updTxn (updTxn s.live tid (fun t => { t with amount := amt })) tid (fun t => { t with date := dt, authorizedDate := d.authorized_date })) tid (fun t => { t with name := nm, merchantName := d.merchant_name })) tid (fun t => { t with isPending := pend })) tid (fun u => { u with category := some (categorize_transaction env.ml nm d.merchant_name d.category (some amt)).1, categoryConfidence := some (categorize_transaction env.ml nm d.merchant_name d.category (some amt)).2 }) }, Except.ok 1) := by
      unfold processModified processModifiedLoop processModifiedRecord
      rw [htid]
      simp only [req, hone, hamt, hdt, hnm, hpend, hov, if_false]
      rfl
    rw [hrun]
    have hl : txnsWithId (updTxn (updTxn (updTxn (updTxn (updTxn s.live tid (fun t => { t with amount := amt })) tid (fun t => { t with date := dt, authorizedDate := d.authorized_date })) tid (fun t => { t with name := nm, merchantName := d.merchant_name })) tid (fun t => { t with isPending := pend })) tid (fun u => { u with category := some (categorize_transaction env.ml nm d.merchant_name d.category (some amt)).1, categoryConfidence := some (categorize_transaction env.ml nm d.merchant_name d.category (some amt)).2 })) tid = [{ t with amount := amt, date := dt, authorizedDate := d.authorized_date, name := nm, merchantName := d.merchant_name, isPending := pend, category := some (categorize_transaction env.ml nm d.merchant_name d.category (some amt)).1, categoryConfidence := some (categorize_transaction env.ml nm d.merchant_name d.category (some amt)).2 }] := by
      rw [txnsWithId_updTxn_self _ _ _ (by intro u; rfl),
        txnsWithId_updTxn_self _ _ _ (by intro u; rfl),
        txnsWithId_updTxn_self _ _ _ (by intro u; rfl),
        txnsWithId_updTxn_self _ _ _ (by intro u; rfl),
        txnsWithId_updTxn_self _ _ _ (by intro u; rfl), hU]
      rfl
    refine ⟨hl, hl, rfl, rfl, rfl, rfl, rfl, rfl, rfl, rfl, ?_, fun _ => ⟨rfl, rfl⟩⟩
    intro hcon
    rw [hov] at hcon
    cases hcon

theorem addedRecordStep_skip (env : Env) (a : Account) (live : Db) (d : TxnData)
    (tid : String) (t : Txn) (hd : d.transaction_id = some tid)
    (hex : txnsWithId live tid = [t]) :
    addedRecordStep env a live d = Except.ok none := by
  unfold addedRecordStep
  rw [hd]
  simp only [req, hex, scalarOneOrNone]

theorem addedRecordStep_ok_none_inv (env : Env) (a : Account) (live : Db) (d : TxnData)
    (h : addedRecordStep env a live d = Except.ok none) :
    ∃ tid t, d.transaction_id = some tid ∧ txnsWithId live tid = [t] := by
  unfold addedRecordStep at h
  cases htid : req d.transaction_id "transaction_id" with
  | error e => simp only [htid] at h; cases h
  | ok tid =>
    simp only [htid] at h
    cases hs : scalarOneOrNone (txnsWithId live tid) with
    | error e => simp only [hs] at h; cases h
    | ok o =>
      cases o with
      | some t0 =>
        refine ⟨tid, t0, ?_, scalarOneOrNone_ok_some hs⟩
        cases hdt : d.transaction_id with
        | none => rw [hdt] at htid; simp [req] at htid
        | some x =>
          rw [hdt] at htid
          simp [req] at htid
          rw [htid]
      | none =>
        simp only [hs] at h
        repeat' split at h
        all_goals cases h

theorem addedRecordStep_ok_some_inv (env : Env) (a : Account) (live : Db) (d : TxnData)
    (t' : Txn) (h : addedRecordStep env a live d = Except.ok (some t')) :
    ∃ tid, d.transaction_id = some tid ∧ t'.plaidTransactionId = some tid ∧
      txnsWithId live tid = [] := by
  unfold addedRecordStep at h
  cases htid : req d.transaction_id "transaction_id" with
  | error e => simp only [htid] at h; cases h
  | ok tid =>
    simp only [htid] at h
    cases hs : scalarOneOrNone (txnsWithId live tid) with
    | error e => simp only [hs] at h; cases h
    | ok o =>
      cases o with
      | some t0 => simp only [hs] at h; cases h
      | none =>
        simp only [hs] at h
        have hdt : d.transaction_id = some tid := by
          cases hdt2 : d.transaction_id with
          | none => rw [hdt2] at htid; simp [req] at htid
          | some x =>
            rw [hdt2] at htid
            simp [req] at htid
            rw [htid]
        refine ⟨tid, hdt, ?_, scalarOneOrNone_ok_none hs⟩
        repeat' split at h
        all_goals cases h
        all_goals rfl

theorem txnsWithId_append_new (db : Db) (t' : Txn) (tid : String)
    (hpl : t'.plaidTransactionId = some tid) (hnil : txnsWithId db tid = []) :
    txnsWithId { db with txns := db.txns ++ [t'] } tid = [t'] := by
  show List.filter _ (db.txns ++ [t']) = _
  rw [List.filter_append]
  have h1 : List.filter (fun u => u.plaidTransactionId == some tid) db.txns = [] := hnil
  have h2 : List.filter (fun u => u.plaidTransactionId == some tid) [t'] = [t'] := by
    simp [List.filter, hpl]
  rw [h1, h2, List.nil_append]

theorem txnsWithId_append_other (db : Db) (t' : Txn) (tid : String)
    (hk : (t'.plaidTransactionId == some tid) = false) :
    txnsWithId { db with txns := db.txns ++ [t'] } tid = txnsWithId db tid := by
  show List.filter _ (db.txns ++ [t']) = _
  rw [List.filter_append]
  have h2 : List.filter (fun u => u.plaidTransactionId == some tid) [t'] = [] := by
    simp [List.filter, hk]
  rw [h2, List.append_nil]
  rfl

theorem processAddedLoop_mono (env : Env) (a : Account) (tid : String) (t : Txn) :
    ∀ (l : List TxnData) (s : Session) (n : Nat) (s1 : Session) (r : Except String Nat),
    processAddedLoop env a s l n = (s1, r) → txnsWithId s.live tid = [t] →
    txnsWithId s1.live tid = [t] := by
  intro l
  induction l with
  | nil => intro s n s1 r h hex; cases h; exact hex
  | cons d rest ih =>
    intro s n s1 r h hex
    simp only [processAddedLoop] at h
    cases hs : addedRecordStep env a s.live d with
    | error e => simp only [hs] at h; cases h; exact hex
    | ok o =>
      cases o with
      | none => simp only [hs] at h; exact ih s n s1 r h hex
      | some t' =>
        simp only [hs] at h
        obtain ⟨tid', hd, hpl, hnil⟩ := addedRecordStep_ok_some_inv env a s.live d t' hs
        have hk : (t'.plaidTransactionId == some tid) = false := by
          rw [hpl]
          by_cases heq : tid' = tid
          · exfalso
            rw [heq] at hnil
            rw [hnil] at hex
            cases hex
          · simp [heq]
        have hex' : txnsWithId { s.live with txns := s.live.txns ++ [t'] } tid = [t] := by
          rw [txnsWithId_append_other s.live t' tid hk]
          exact hex
        have hc := ih _ (n + 1) s1 r h hex'
        exact hc

theorem processAddedLoop_presence (env : Env) (a : Account) (tid : String) :
    ∀ (l : List TxnData) (s : Session) (n : Nat) (s1 : Session) (m : Nat),
    processAddedLoop env a s l n = (s1, Except.ok m) →
    (∃ d ∈ l, d.transaction_id = some tid) →
    ∃ t, txnsWithId s1.live tid = [t] := by
  intro l
  induction l with
  | nil =>
    intro s n s1 m h hmem
    obtain ⟨d, hd, _⟩ := hmem
    cases hd
  | cons d0 rest ih =>
    intro s n s1 m h hmem
    simp only [processAddedLoop] at h
    cases hs : addedRecordStep env a s.live d0 with
    | error e => simp only [hs] at h; simp at h
    | ok o =>
      obtain ⟨d, hd, htid⟩ := hmem
      cases o with
      | none =>
        simp only [hs] at h
        rcases List.mem_cons.mp hd with heq | hrest
        · subst heq
          obtain ⟨tid0, t0, hd0, hex0⟩ := addedRecordStep_ok_none_inv env a s.live d hs
          rw [htid] at hd0
          cases hd0
          exact ⟨t0, processAddedLoop_mono env a tid t0 rest s n s1 _ h hex0⟩
        · exact ih s n s1 m h ⟨d, hrest, htid⟩
      | some t' =>
        simp only [hs] at h
        rcases List.mem_cons.mp hd with heq | hrest
        · subst heq
          obtain ⟨tid0, hd0, hpl, hnil⟩ := addedRecordStep_ok_some_inv env a s.live d t' hs
          rw [htid] at hd0
          cases hd0
          have hex' : txnsWithId { s.live with txns := s.live.txns ++ [t'] } tid = [t'] :=
            txnsWithId_append_new s.live t' tid hpl hnil
          exact ⟨t', processAddedLoop_mono env a tid t' rest _ (n + 1) s1 _ h hex'⟩
        · have hc := ih _ (n + 1) s1 m h ⟨d, hrest, htid⟩
          exact hc

theorem processAddedLoop_skip_all (env : Env) (a : Account) :
    ∀ (l : List TxnData) (s : Session) (n : Nat) (s1 : Session) (m : Nat),
    processAddedLoop env a s l n = (s1, Except.ok m) →
    ∀ (s2 : Session) (k : Nat), s2.live = s1.live →
    processAddedLoop env a s2 l k = (s2, Except.ok k) := by
  intro l
  induction l with
  | nil => intro s n s1 m h s2 k hlive; rfl
  | cons d rest ih =>
    intro s n s1 m h s2 k hlive
    simp only [processAddedLoop] at h ⊢
    cases hs : addedRecordStep env a s.live d with
    | error e => simp only [hs] at h; simp at h
    | ok o =>
      cases o with
      | none =>
        simp only [hs] at h
        obtain ⟨tid, t, hd, hex⟩ := addedRecordStep_ok_none_inv env a s.live d hs
        have hex1 : txnsWithId s2.live tid = [t] := by
          rw [hlive]
          exact processAddedLoop_mono env a tid t rest s n s1 _ h hex
        rw [addedRecordStep_skip env a s2.live d tid t hd hex1]
        exact ih s n s1 m h s2 k hlive
      | some t' =>
        simp only [hs] at h
        obtain ⟨tid, hd, hpl, hnil⟩ := addedRecordStep_ok_some_inv env a s.live d t' hs
        have hex' : txnsWithId { s.live with txns := s.live.txns ++ [t'] } tid = [t'] :=
          txnsWithId_append_new s.live t' tid hpl hnil
        have hex1 : txnsWithId s2.live tid = [t'] := by
          rw [hlive]
          exact processAddedLoop_mono env a tid t' rest _ (n + 1) s1 _ h hex'
        rw [addedRecordStep_skip env a s2.live d tid t' hd hex1]
        exact ih _ (n + 1) s1 m h s2 k hlive

/-- Claim C4: reconciling the same added batch twice equals reconciling
it once — on the second run every record is skipped as a duplicate, the
store does not change and the added count is 0 — and any external id
occurring in a successfully reconciled batch is stored as exactly one
row afterwards (dedup within the batch included). -/
theorem C4_added_idempotent (env : Env) (acct : Account) (s s1 : Session)
    (batch : List TxnData) (n : Nat)
    (h : processAdded env acct s batch = (s1, Except.ok n)) :
    processAdded env acct s1 batch = (s1, Except.ok 0) ∧
    (∀ (d : TxnData) (tid : String), d ∈ batch → d.transaction_id = some tid →
      ∃ t, txnsWithId s1.live tid = [t]) := by
  unfold processAdded at h ⊢
  cases hl : processAddedLoop env acct s batch 0 with
  | mk s0 r0 =>
    rw [hl] at h
    cases r0 with
    | error e => cases h
    | ok m =>
      cases h
      constructor
      · rw [processAddedLoop_skip_all env acct batch s 0 s0 n hl (commit s0) 0 rfl]
        rfl
      · intro d tid hd htid
        obtain ⟨t, ht⟩ := processAddedLoop_presence env acct tid batch s 0 s0 n hl ⟨d, hd, htid⟩
        exact ⟨t, ht⟩

/-- Witness for C4_added_idempotent: the batch holds the same record
twice; after one run the id `tA` is stored exactly once and a second run
is a no-op. -/
theorem C4_added_idempotent_witness :
    processAdded fxEnvAdd { fxAccount with syncStatus := "syncing" }
        (processAdded fxEnvAdd { fxAccount with syncStatus := "syncing" }
          (fxSession "success") [fxRecA, fxRecA]).1 [fxRecA, fxRecA]
      = ((processAdded fxEnvAdd { fxAccount with syncStatus := "syncing" }
          (fxSession "success") [fxRecA, fxRecA]).1, Except.ok 0) ∧
    ∃ t, txnsWithId (processAdded fxEnvAdd { fxAccount with syncStatus := "syncing" }
        (fxSession "success") [fxRecA, fxRecA]).1.live "tA" = [t] :=
  have h := C4_added_idempotent fxEnvAdd { fxAccount with syncStatus := "syncing" }
    (fxSession "success")
    (processAdded fxEnvAdd { fxAccount with syncStatus := "syncing" }
      (fxSession "success") [fxRecA, fxRecA]).1 [fxRecA, fxRecA] 1 (by decide)
  ⟨h.1, h.2 fxRecA "tA" (by decide) (by decide)⟩

/-- Witness for C3_override_preserved: a modified event for the
overridden row `t0` updates amount, date, name and pending flag but
keeps the user category's classification fields. -/
theorem C3_override_preserved_witness :
    ∃ t',
      txnsWithId (processModified fxEnvNone fxSessionOv [fxRec "t0"]).1.live "t0" = [t'] ∧
      txnsWithId (processModified fxEnvNone fxSessionOv [fxRec "t0"]).1.committed "t0" = [t'] ∧
      (processModified fxEnvNone fxSessionOv [fxRec "t0"]).2 = Except.ok 1 ∧
      t'.amount = q 475 100 ∧ t'.date = "2025-02-01" ∧ t'.name = "STARBUCKS" ∧
      t'.authorizedDate = (fxRec "t0").authorized_date ∧
      t'.merchantName = (fxRec "t0").merchant_name ∧
      t'.isPending = false ∧ t'.userCategory = fxTxnOv.userCategory ∧
      (truthyStr fxTxnOv.userCategory = true →
        t'.category = fxTxnOv.category ∧ t'.categoryConfidence = fxTxnOv.categoryConfidence) ∧
      (truthyStr fxTxnOv.userCategory = false →
        t'.category = some (categorize_transaction fxEnvNone.ml "STARBUCKS"
            (fxRec "t0").merchant_name (fxRec "t0").category (some (q 475 100))).1 ∧
        t'.categoryConfidence = some (categorize_transaction fxEnvNone.ml "STARBUCKS"
            (fxRec "t0").merchant_name (fxRec "t0").category (some (q 475 100))).2) :=
  C3_override_preserved fxEnvNone fxSessionOv (fxRec "t0") "t0" fxTxnOv (q 475 100)
    "2025-02-01" "STARBUCKS" false (by decide) (by decide) (by decide) (by decide)
    (by decide) (by decide)

end FinRack
